import Mathlib

/-
Shallow embedding of the screamon detection core (screamon repository).

The definitions below translate, function by function, the parts of the
source that the verified properties are about:

* `MonitorRunner.run_once` misread hysteresis (src/screamon/monitor/runner.py)
* `BaseDetector.detect` success/failure state machine (src/screamon/detectors/base.py)
* the numeric alert comparator shared by the concrete detectors
  (src/screamon/detectors/local_count.py, overview.py, targets.py)
* the image filters `GrayscaleFilter` / `ThresholdFilter` and the filter
  registry (src/screamon/pipeline/filters.py, processor.py)
* `LocalCountDetector._extract_value` / `_manual_extract`
  (src/screamon/detectors/local_count.py)
* `extract_text_with_confidence` (src/screamon/pipeline/ocr.py)
* `TargetDetector._extract_value` and `ASTEROID_VARIATIONS`
  (src/screamon/detectors/targets.py)

Python text is modelled as `List Char` (or `String` where no character
level computation happens), machine integers as `Nat`/`Int` (pixel values
are `Nat`; EVE counts are `Int`), OCR confidences as `ℚ`, and fallible
extraction as `Option`.
-/

namespace Screamon

/-! ## Monitor runner: misread-count hysteresis

`MonitorRunner.run_once` keeps a per-detector misread count.  On an
`error` result it increments the count, and when the incremented count is
`<= 1` or `> 4` it plays the error alert and resets the count to 1; on a
successful result it resets the count to 0
(src/screamon/monitor/runner.py lines 176-186). -/

/-- One error cycle of the runner hysteresis: given the stored misread
count, returns the new stored count and whether the error alert plays.
Mirrors runner.py lines 177-183. -/
def misreadStep (c : Nat) : Nat × Bool :=
  let c1 := c + 1
  if c1 ≤ 1 ∨ 4 < c1 then (1, true) else (c1, false)

/-- One full runner cycle for a detector: on an error result run
`misreadStep`, on success reset the count to 0 (runner.py line 186) and
play no error alert. -/
def cycleStep (c : Nat) (isError : Bool) : Nat × Bool :=
  if isError then misreadStep c else (0, false)

/-- The stored misread count after running a sequence of cycles (each
cycle flagged `true` when extraction errored) from starting count `c`. -/
def runCycles (c : Nat) (errs : List Bool) : Nat :=
  errs.foldl (fun acc e => (cycleStep acc e).1) c

/-- Stored misread count after `n` consecutive error cycles starting from
count 0 (the state right after a success, or the initial state). -/
def countAfterFails : Nat → Nat
  | 0 => 0
  | n + 1 => (misreadStep (countAfterFails n)).1

/-- Whether the error alert plays on the `n`-th consecutive failure
(1-based) after a success. -/
def alertOnNthFailure (n : Nat) : Bool :=
  (misreadStep (countAfterFails (n - 1))).2

/-- The list of alert flags for failures 1..n after a success. -/
def alertsForFailures (n : Nat) : List Bool :=
  (List.range n).map (fun k => alertOnNthFailure (k + 1))

/-! ## Detector state machine (`BaseDetector.detect`) -/

/-- Alert levels a detector can report (base.py line 16). -/
inductive AlertLevel
  | increase
  | decrease
  | error
  deriving DecidableEq, Repr

/-- The mutable state of a `BaseDetector`: `_last_value`,
`_last_raw_text`, `_error_count` (base.py lines 102-104). -/
structure DetectorState where
  lastValue : Option Int
  lastRawText : Option String
  errorCount : Nat
  deriving DecidableEq, Repr

/-- A `DetectorResult` (base.py lines 10-19), restricted to the fields
`detect` computes (the timestamp and confidence are environment data). -/
structure DetectResult where
  value : Option Int
  changed : Bool
  alertLevel : Option AlertLevel
  rawText : String
  deriving DecidableEq, Repr

/-- State of a freshly constructed or `reset()` detector
(base.py lines 102-104 and 208-212). -/
def freshDetectorState : DetectorState :=
  { lastValue := none, lastRawText := none, errorCount := 0 }

/-- `BaseDetector.detect` (base.py lines 114-166), parameterised over the
subclass hooks `_extract_value` and `_determine_alert_level`, applied to
the OCR text of the processed image.  Returns the updated state together
with the `DetectorResult`. -/
def detect (extract : String → Option Int)
    (determineAlertLevel : Int → Int → Option AlertLevel)
    (st : DetectorState) (rawText : String) : DetectorState × DetectResult :=
  match extract rawText with
  | none =>
      ({ st with errorCount := st.errorCount + 1 },
       { value := none, changed := false,
         alertLevel := some AlertLevel.error, rawText := rawText })
  | some v =>
      let changed : Bool := decide (some v ≠ st.lastValue)
      let alertLevel : Option AlertLevel :=
        match st.lastValue, changed with
        | some old, true => determineAlertLevel old v
        | _, _ => none
      ({ lastValue := some v, lastRawText := some rawText, errorCount := 0 },
       { value := some v, changed := changed,
         alertLevel := alertLevel, rawText := rawText })

/-- The numeric comparator shared verbatim by
`LocalCountDetector._determine_alert_level` (local_count.py lines
114-125), `OverviewDetector` and `TargetDetector`. -/
def localDetermineAlertLevel (oldValue newValue : Int) : Option AlertLevel :=
  if newValue > oldValue then some AlertLevel.increase
  else if newValue < oldValue then some AlertLevel.decrease
  else none

/-! ## Theorems on the runner hysteresis -/

theorem countAfterFails_eq (n : Nat) :
    countAfterFails n = if n = 0 then 0 else (n - 1) % 4 + 1 := by
  induction n with
  | zero => rfl
  | succ m ih =>
    simp only [countAfterFails, ih, misreadStep]
    by_cases hm : m = 0
    · subst hm; simp
    · simp only [if_neg hm, if_neg (Nat.succ_ne_zero m)]
      split <;> omega

theorem misreadStep_snd (c : Nat) :
    (misreadStep c).2 = true ↔ (c = 0 ∨ 4 ≤ c) := by
  simp only [misreadStep]
  split
  next hcond => simp; omega
  next hcond => simp; omega

/-- C1: starting from misread count 0 (the state after a success), the
error alert plays on the `n`-th consecutive extraction failure exactly
when `n ≡ 1 (mod 4)`; in particular five consecutive failures alert
exactly on occurrences 1 and 5. -/
theorem alert_hysteresis_mod_four :
    (∀ n : Nat, 1 ≤ n → (alertOnNthFailure n = true ↔ n % 4 = 1)) ∧
    alertsForFailures 5 = [true, false, false, false, true] := by
  constructor
  · intro n hn
    unfold alertOnNthFailure
    rw [misreadStep_snd, countAfterFails_eq]
    by_cases h1 : n - 1 = 0
    · have hn1 : n = 1 := by omega
      subst hn1
      simp
    · rw [if_neg h1]
      omega
  · decide

/-- Witness for `alert_hysteresis_mod_four` at `n = 5`. -/
theorem alert_hysteresis_mod_four_witness :
    alertOnNthFailure 5 = true :=
  (alert_hysteresis_mod_four.1 5 (by norm_num)).mpr (by norm_num)

theorem runCycles_replicate_true (n : Nat) :
    runCycles 0 (List.replicate n true) = countAfterFails n := by
  induction n with
  | zero => rfl
  | succ m ih =>
    rw [List.replicate_succ']
    unfold runCycles at ih ⊢
    rw [List.foldl_append, ih]
    simp [countAfterFails, cycleStep]

/-- C4 counterexample: after a success followed by 5 consecutive
failures, the stored misread count is 1, not the consecutive-failure
count 5 claimed by the invariant. -/
theorem misreadCounter_not_failure_count :
    runCycles 0 [false, true, true, true, true, true] = 1 ∧ (1 : Nat) ≠ 5 := by
  constructor
  · rfl
  · decide

/-- C4 (amended): from any stored count, after a success followed by `n`
consecutive failures the stored misread count is 0 when `n = 0` and
`(n - 1) % 4 + 1` when `n ≥ 1` — it is reset to 1 (not left at the true
consecutive-failure count) each time the hysteresis alert plays. -/
theorem misreadCounter_invariant (c n : Nat) :
    runCycles c (false :: List.replicate n true) =
      if n = 0 then 0 else (n - 1) % 4 + 1 := by
  have h0 : runCycles c (false :: List.replicate n true)
      = runCycles 0 (List.replicate n true) := rfl
  rw [h0, runCycles_replicate_true, countAfterFails_eq]

/-! ## Theorems on the detector state machine -/

/-- C2: on a successful extraction, `changed` is exactly
`value ≠ last_value`; the alert level is `none` unless the value changed
and a prior value existed (so the first success after construction or
`reset()` never alerts); and with the detectors' numeric comparator a
changed value with a prior yields `increase` when larger and `decrease`
when smaller. -/
theorem detect_success_spec (extract : String → Option Int)
    (cmp : Int → Int → Option AlertLevel)
    (st : DetectorState) (text : String) (v : Int)
    (h : extract text = some v) :
    (detect extract cmp st text).2.changed = decide (some v ≠ st.lastValue) ∧
    ((detect extract cmp st text).2.alertLevel ≠ none →
      (detect extract cmp st text).2.changed = true ∧ st.lastValue ≠ none) ∧
    (st.lastValue = none → (detect extract cmp st text).2.alertLevel = none) ∧
    (∀ old : Int, st.lastValue = some old → v ≠ old →
      (detect extract localDetermineAlertLevel st text).2.alertLevel =
        if old < v then some AlertLevel.increase else some AlertLevel.decrease) := by
  refine ⟨?_, ?_, ?_, ?_⟩
  · simp [detect, h]
  · intro hne
    rcases hl : st.lastValue with _ | old
    · exfalso
      apply hne
      simp [detect, h, hl]
    · constructor
      · by_cases hv : some v = some old
        · exfalso
          apply hne
          simp [detect, h, hl, hv]
        · simp [detect, h, hl, hv]
      · simp [hl]
  · intro hl
    simp [detect, h, hl]
  · intro old hl hvo
    simp only [detect, h, hl, localDetermineAlertLevel, hvo]
    by_cases hlt : old < v
    · simp [hvo, hlt]
    · have hgt : v < old := by
        rcases lt_trichotomy old v with h' | h' | h'
        · exact absurd h' hlt
        · exact absurd h'.symm hvo
        · exact h'
      simp [hvo, hlt, hgt, not_lt.mpr (le_of_lt hgt)]

/-- Witness for `detect_success_spec`: a fresh detector whose extraction
returns 3 reports no alert on its first success. -/
theorem detect_success_spec_witness :
    (detect (fun _ => some 3) localDetermineAlertLevel
      freshDetectorState "x").2.alertLevel = none :=
  (detect_success_spec (fun _ => some 3) localDetermineAlertLevel
    freshDetectorState "x" 3 rfl).2.2.1 rfl

/-- C3: on a failed extraction, `detect` reports `alert_level = error`
and `changed = false`, and leaves the stored last value and last raw
text untouched; consequently any sequence of misreads leaves the value
observed at the preceding success unchanged. -/
theorem detect_failure_frame (extract : String → Option Int)
    (cmp : Int → Int → Option AlertLevel)
    (st : DetectorState) (text : String)
    (h : extract text = none) :
    (detect extract cmp st text).2.alertLevel = some AlertLevel.error ∧
    (detect extract cmp st text).2.changed = false ∧
    (detect extract cmp st text).1.lastValue = st.lastValue ∧
    (detect extract cmp st text).1.lastRawText = st.lastRawText ∧
    (∀ texts : List String, (∀ t ∈ texts, extract t = none) →
      (texts.foldl (fun s t => (detect extract cmp s t).1) st).lastValue
        = st.lastValue) := by
  refine ⟨by simp [detect, h], by simp [detect, h], by simp [detect, h],
    by simp [detect, h], ?_⟩
  intro texts htexts
  induction texts generalizing st with
  | nil => rfl
  | cons t rest ih =>
    have ht : extract t = none := htexts t (by simp)
    have hrest : ∀ u ∈ rest, extract u = none := fun u hu => htexts u (by simp [hu])
    rw [List.foldl_cons]
    rw [ih _ hrest]
    simp [detect, ht]

/-- Witness for `detect_failure_frame`: a failing extraction on a fresh
detector reports the error alert level. -/
theorem detect_failure_frame_witness :
    (detect (fun _ => none) localDetermineAlertLevel
      freshDetectorState "x").2.alertLevel = some AlertLevel.error :=
  (detect_failure_frame (fun _ => none) localDetermineAlertLevel
    freshDetectorState "x" rfl).1

/-! ## Image filters (filters.py)

An image is a rectangular array of `uint8` pixels; the numpy shape
dispatch in `GrayscaleFilter.apply` / `ThresholdFilter.apply`
distinguishes 2-dimensional (single channel), 3-channel and 4-channel
arrays, embedded here as three constructors. -/

/-- A numpy image as the filters see it: single-channel, RGB, or RGBA. -/
inductive Img
  | gray (m : List (List Nat))
  | color (m : List (List (Nat × Nat × Nat)))
  | rgba (m : List (List (Nat × Nat × Nat × Nat)))
  deriving DecidableEq, Repr

/-- One pixel of OpenCV `COLOR_RGB2GRAY` on 8-bit data:
`0.299 R + 0.587 G + 0.114 B` computed in fixed point with the
coefficients scaled by `2^14` and round-to-nearest descaling. -/
def rgb2gray (p : Nat × Nat × Nat) : Nat :=
  (4899 * p.1 + 9617 * p.2.1 + 1868 * p.2.2 + 8192) / 16384

/-- `COLOR_RGBA2RGB`: drop the alpha channel. -/
def rgbaDropAlpha (p : Nat × Nat × Nat × Nat) : Nat × Nat × Nat :=
  (p.1, p.2.1, p.2.2.1)

/-- `GrayscaleFilter.apply` (filters.py lines 73-85): identity on
2-dimensional input; RGBA is converted to RGB (alpha dropped) and then
to gray; RGB goes directly to gray. -/
def grayscaleApply : Img → Img
  | Img.gray m => Img.gray m
  | Img.rgba m => Img.gray (m.map (List.map (fun p => rgb2gray (rgbaDropAlpha p))))
  | Img.color m => Img.gray (m.map (List.map rgb2gray))

/-- One pixel of `cv2.threshold(..., 255, cv2.THRESH_BINARY)`: `255`
when the pixel strictly exceeds the threshold, else `0`. -/
def threshPixel (v p : Nat) : Nat := if v < p then 255 else 0

/-- `ThresholdFilter.apply` (filters.py lines 96-102): 3-dimensional
input (3- or 4-channel) is first converted with `COLOR_RGB2GRAY` (which
ignores a 4th channel), then binary-thresholded. -/
def thresholdApply (v : Nat) : Img → Img
  | Img.gray m => Img.gray (m.map (List.map (threshPixel v)))
  | Img.color m => Img.gray (m.map (List.map (fun p => threshPixel v (rgb2gray p))))
  | Img.rgba m =>
      Img.gray (m.map (List.map (fun p => threshPixel v (rgb2gray (rgbaDropAlpha p)))))

theorem grayThreshold_comm (m : List (List (Nat × Nat × Nat))) (v : Nat) :
    thresholdApply v (grayscaleApply (Img.color m)) =
      grayscaleApply (thresholdApply v (Img.color m)) := by
  simp [grayscaleApply, thresholdApply, List.map_map, Function.comp]

/-- C5 counterexample: no 3-channel image distinguishes the two
composition orders — `ThresholdFilter` converts 3-channel input to
grayscale itself and `GrayscaleFilter` is the identity on single-channel
input, so the claimed distinguishing color image cannot exist. -/
theorem grayscale_threshold_no_distinguishing_image :
    ¬ ∃ (m : List (List (Nat × Nat × Nat))) (v : Nat),
      thresholdApply v (grayscaleApply (Img.color m)) ≠
        grayscaleApply (thresholdApply v (Img.color m)) := by
  rintro ⟨m, v, hne⟩
  exact hne (grayThreshold_comm m v)

/-- C5 (amended): for every 3-channel image and every threshold value,
Grayscale-then-Threshold and Threshold-then-Grayscale produce the same
output image. -/
theorem grayscale_threshold_commute (m : List (List (Nat × Nat × Nat))) (v : Nat) :
    thresholdApply v (grayscaleApply (Img.color m)) =
      grayscaleApply (thresholdApply v (Img.color m)) :=
  grayThreshold_comm m v

/-- C6 counterexample: with threshold 180 the single-pixel gray image
`[[180]]` is mapped to `[[0]]`, not the `[[255]]` that the claimed
`≥`-rule predicts for a pixel exactly equal to the threshold. -/
theorem threshold_at_equal_pixel :
    thresholdApply 180 (Img.gray [[180]]) = Img.gray [[0]] ∧
    Img.gray [[0]] ≠ Img.gray [[255]] := by
  constructor
  · rfl
  · decide

/-- C6 (amended): on a single-channel image the Threshold filter maps
each pixel `p` to 255 when `p > v` and to 0 otherwise; in particular a
pixel exactly equal to `v` maps to 0. -/
theorem threshold_pixelwise (v : Nat) (m : List (List Nat)) (i j : Nat)
    (row : List Nat) (p : Nat)
    (hrow : m[i]? = some row) (hp : row[j]? = some p) :
    ∃ row' : List Nat,
      (∃ m', thresholdApply v (Img.gray m) = Img.gray m' ∧ m'[i]? = some row') ∧
      row'[j]? = some (if v < p then 255 else 0) ∧
      (p = v → row'[j]? = some 0) := by
  refine ⟨row.map (threshPixel v), ⟨m.map (List.map (threshPixel v)), rfl, ?_⟩, ?_, ?_⟩
  · rw [List.getElem?_map, hrow]
    rfl
  · rw [List.getElem?_map, hp]
    rfl
  · intro hpv
    rw [List.getElem?_map, hp]
    subst hpv
    simp [threshPixel]

/-- Witness for `threshold_pixelwise` at the image `[[180]]` with
threshold 180. -/
theorem threshold_pixelwise_witness :
    ∃ row' : List Nat,
      (∃ m', thresholdApply 180 (Img.gray [[180]]) = Img.gray m' ∧
        m'[0]? = some row') ∧
      row'[0]? = some (if 180 < 180 then 255 else 0) ∧
      (180 = 180 → row'[0]? = some 0) :=
  threshold_pixelwise 180 [[180]] 0 0 [180] 180 rfl rfl

/-! ## Filter registry and pipeline construction -/

/-- The keys of `FILTER_REGISTRY` (filters.py lines 186-195). -/
def FILTER_REGISTRY : List String :=
  ["upscale", "contrast", "grayscale", "threshold",
   "denoise", "star_removal", "invert", "adaptive_threshold"]

/-- `create_filter` (filters.py lines 198-216): raises `ValueError` when
the name is missing from the registry, otherwise returns the constructed
filter (identified here by its registry name). -/
def createFilter (name : String) : Except String String :=
  if name ∈ FILTER_REGISTRY then Except.ok name
  else Except.error ("Unknown filter: " ++ name)

/-- `ImageProcessor._build_filters` (processor.py lines 78-89): builds
filter instances in configured order; a `create_filter` failure is
re-raised, aborting construction at the first unknown name. -/
def buildFilters : List String → Except String (List String)
  | [] => Except.ok []
  | n :: rest =>
      match createFilter n with
      | Except.ok f =>
          match buildFilters rest with
          | Except.ok fs => Except.ok (f :: fs)
          | Except.error e => Except.error e
      | Except.error e => Except.error e

/-- C8: pipeline construction errors exactly when some listed filter
name does not resolve in the registry, and a successful construction
yields exactly the named filters in order — no name is silently skipped
and no partial filter list escapes a failed construction. -/
theorem buildFilters_spec (names : List String) :
    ((∃ e, buildFilters names = Except.error e) ↔
      ∃ n ∈ names, n ∉ FILTER_REGISTRY) ∧
    (∀ fs, buildFilters names = Except.ok fs → fs = names) := by
  induction names with
  | nil =>
    constructor
    · simp [buildFilters]
    · intro fs hfs
      simpa [buildFilters] using hfs.symm
  | cons n rest ih =>
    by_cases hn : n ∈ FILTER_REGISTRY
    · rcases hrest : buildFilters rest with e | fs
      · refine ⟨⟨fun _ => ?_, fun _ => ?_⟩, fun fs hfs => ?_⟩
        · rcases ih.1.mp ⟨e, hrest⟩ with ⟨m, hm, hmreg⟩
          exact ⟨m, List.mem_cons_of_mem _ hm, hmreg⟩
        · exact ⟨e, by simp [buildFilters, createFilter, hn, hrest]⟩
        · simp [buildFilters, createFilter, hn, hrest] at hfs
      · refine ⟨⟨fun he => ?_, fun hbad => ?_⟩, fun fs' hfs' => ?_⟩
        · rcases he with ⟨e, he⟩
          simp [buildFilters, createFilter, hn, hrest] at he
        · rcases hbad with ⟨m, hm, hmreg⟩
          rcases List.mem_cons.mp hm with rfl | hm'
          · exact absurd hn hmreg
          · rcases ih.1.mpr ⟨m, hm', hmreg⟩ with ⟨e, he⟩
            rw [hrest] at he
            simp at he
        · have hfs2 : fs = rest := ih.2 fs hrest
          simp [buildFilters, createFilter, hn, hrest] at hfs'
          rw [← hfs', hfs2]
    · refine ⟨⟨fun _ => ?_, fun _ => ?_⟩, fun fs hfs => ?_⟩
      · exact ⟨n, List.mem_cons_self _ _, hn⟩
      · exact ⟨"Unknown filter: " ++ n, by simp [buildFilters, createFilter, hn]⟩
      · simp [buildFilters, createFilter, hn] at hfs

/-- Witness for `buildFilters_spec`: applied to the list
`["upscale", "bogus"]` it certifies that some listed name is missing
from the registry. -/
theorem buildFilters_spec_witness :
    ∃ n ∈ ["upscale", "bogus"], n ∉ FILTER_REGISTRY :=
  (buildFilters_spec ["upscale", "bogus"]).1.mp ⟨"Unknown filter: bogus", by rfl⟩

/-! ## Python string helpers -/

/-- The ASCII whitespace characters removed by Python `str.strip()` and
matched by the regex class `\s` (the OCR text handled here is ASCII). -/
def isPyWhitespace (c : Char) : Bool :=
  c = ' ' || c = '\t' || c = '\n' || c = '\r' || c = '\x0b' || c = '\x0c'

/-- Python `str.strip()`: remove leading and trailing whitespace. -/
def pyStrip (s : List Char) : List Char :=
  ((s.dropWhile isPyWhitespace).reverse.dropWhile isPyWhitespace).reverse

/-! ## OCR confidence extraction (ocr.py) -/

/-- The per-token filter of `extract_text_with_confidence` (ocr.py line
63): keep a token when its stripped text is nonblank and its confidence
is not the `-1` "no confidence" sentinel. -/
def validToken (t : List Char × Int) : Bool :=
  decide (pyStrip t.1 ≠ []) && decide (t.2 ≠ -1)

/-- `extract_text_with_confidence` (ocr.py lines 39-75), applied to the
OCR engine's outcome: `some d` is a successful `image_to_data` call
yielding per-token text and confidence, `none` is an internal engine
exception.  Returns the space-joined kept tokens and the confidence
component — which the `except` branch leaves absent (`confidence=None`). -/
def extractTextWithConfidence (data : Option (List (List Char × Int))) :
    List Char × Option ℚ :=
  match data with
  | none => ([], none)
  | some d =>
      let valid := d.filter validToken
      let words := valid.map Prod.fst
      let confidences := valid.map Prod.snd
      let fullText := List.intercalate [' '] words
      let avg : ℚ :=
        if confidences.length ≠ 0 then
          (confidences.map (fun c : Int => (c : ℚ))).sum / (confidences.length : ℚ)
        else 0
      (fullText, some avg)

/-- C9 counterexample: on an internal OCR-engine failure the confidence
component is absent (`None`), not the claimed `0.0`. -/
theorem ocr_confidence_none_on_failure :
    (extractTextWithConfidence none).2 = none ∧
    (extractTextWithConfidence none).2 ≠ some (0 : ℚ) := by
  constructor <;> simp [extractTextWithConfidence]

/-- C9 (amended): on a successful engine call the reported confidence is
the average over exactly the tokens whose stripped text is nonblank and
whose confidence is not the `-1` sentinel, and it is `0.0` when no such
token exists; on an internal OCR-engine failure the confidence component
is absent (`None`) rather than `0.0`. -/
theorem ocr_confidence_spec (d : List (List Char × Int)) :
    (extractTextWithConfidence (some d)).2 =
      some (if (d.filter validToken).length ≠ 0 then
        ((d.filter validToken).map (fun t => (t.2 : ℚ))).sum /
          ((d.filter validToken).length : ℚ)
      else 0) ∧
    (∀ t ∈ d.filter validToken, pyStrip t.1 ≠ [] ∧ t.2 ≠ -1) ∧
    ((d.filter validToken).length = 0 →
      (extractTextWithConfidence (some d)).2 = some 0) ∧
    (extractTextWithConfidence none).2 = none := by
  refine ⟨?_, ?_, ?_, rfl⟩
  · have hmap : ((d.filter validToken).map Prod.snd).map (fun c : Int => (c : ℚ)) =
        (d.filter validToken).map (fun t => (t.2 : ℚ)) := by
      rw [List.map_map]; rfl
    have hlen : ((d.filter validToken).map Prod.snd).length =
        (d.filter validToken).length := List.length_map _ _
    simp only [extractTextWithConfidence]
    rw [hmap, hlen]
  · intro t ht
    have := (List.mem_filter.mp ht).2
    simpa [validToken] using this
  · intro hlen
    simp [extractTextWithConfidence, hlen]

/-- Witness for `ocr_confidence_spec`: a single token carrying the
`-1` sentinel is excluded, so the reported confidence is `0`. -/
theorem ocr_confidence_spec_witness :
    (extractTextWithConfidence (some [(['a'], -1)])).2 = some 0 :=
  (ocr_confidence_spec [(['a'], -1)]).2.2.1 (by rfl)

/-! ## Target detector (targets.py) -/

/-- Python `str.count`: non-overlapping occurrences of `needle` in
`hay`, scanning left to right (an empty needle matches at every position
and at the end).  The fuel argument, instantiated with the text length,
makes the recursion structural. -/
def countOccurFuel (needle : List Char) : Nat → List Char → Nat
  | _, [] => if needle.isEmpty then 1 else 0
  | 0, _ :: _ => 0
  | fuel + 1, c :: rest =>
      if needle.isPrefixOf (c :: rest) then
        1 + countOccurFuel needle fuel (rest.drop (needle.length - 1))
      else
        countOccurFuel needle fuel rest

/-- Python `hay.count(needle)`. -/
def countOccur (needle hay : List Char) : Nat :=
  countOccurFuel needle hay.length hay

/-- `ASTEROID_VARIATIONS` (targets.py lines 11-20): the default search
terms; the literal "Asterold" appears twice in the source list. -/
def ASTEROID_VARIATIONS : List String :=
  ["Asteroid", "Astroid", "Asteraid", "Asterpid",
   "Asterocid", "Astersid", "Asterold", "Asterold"]

/-- `TargetDetector._extract_value` (targets.py lines 39-53): the sum of
`text.count(term)` over the configured search terms. -/
def targetExtractValue (searchTerms : List String) (text : List Char) : Nat :=
  (searchTerms.map (fun term => countOccur term.toList text)).sum

/-- C10: the default search-term list contains "Asterold" twice, so a
text containing "Asterold" exactly `n` times and no other configured
term yields extracted value `2 * n`, not `n`. -/
theorem target_asterold_double_count :
    ASTEROID_VARIATIONS.count "Asterold" = 2 ∧
    (∀ (text : List Char) (n : Nat),
      countOccur "Asterold".toList text = n →
      (∀ t ∈ ASTEROID_VARIATIONS, t ≠ "Asterold" → countOccur t.toList text = 0) →
      targetExtractValue ASTEROID_VARIATIONS text = 2 * n) := by
  constructor
  · rfl
  · intro text n hn hothers
    have h1 := hothers "Asteroid" (by simp [ASTEROID_VARIATIONS]) (by decide)
    have h2 := hothers "Astroid" (by simp [ASTEROID_VARIATIONS]) (by decide)
    have h3 := hothers "Asteraid" (by simp [ASTEROID_VARIATIONS]) (by decide)
    have h4 := hothers "Asterpid" (by simp [ASTEROID_VARIATIONS]) (by decide)
    have h5 := hothers "Asterocid" (by simp [ASTEROID_VARIATIONS]) (by decide)
    have h6 := hothers "Astersid" (by simp [ASTEROID_VARIATIONS]) (by decide)
    simp only [targetExtractValue, ASTEROID_VARIATIONS, List.map_cons,
      List.map_nil, List.sum_cons, List.sum_nil, h1, h2, h3, h4, h5, h6, hn]
    omega

/-- Witness for `target_asterold_double_count`: the text
"AsteroldAsterold" contains "Asterold" twice and no other configured
term, and is counted with value 4. -/
theorem target_asterold_double_count_witness :
    targetExtractValue ASTEROID_VARIATIONS "AsteroldAsterold".toList = 2 * 2 :=
  target_asterold_double_count.2 "AsteroldAsterold".toList 2 (by rfl) (by decide)

/-! ## LocalCount extraction (local_count.py)

`LocalCountDetector._extract_value` first tries two regular expressions
and then a manual parse.  The Python primitives it uses are embedded
first: `str.find` (returning `-1` on absence), slicing, and `int()`. -/

/-- Python `str.find(ch)` scanning from current index `idx`: the index
of the first occurrence of `ch`, or `-1`. -/
def pyFindAux (c : Char) : List Char → Nat → Int
  | [], _ => -1
  | x :: rest, idx => if x = c then (idx : Int) else pyFindAux c rest (idx + 1)

/-- Python `text.find(ch)`. -/
def pyFind (s : List Char) (c : Char) : Int := pyFindAux c s 0

/-- Python `text.find(ch, start)` with `start ≥ 0`. -/
def pyFindFrom (s : List Char) (c : Char) (start : Nat) : Int :=
  pyFindAux c (s.drop start) start

/-- Python slice `s[a:b]` for `0 ≤ a` and `0 ≤ b`. -/
def pySliceFrom (s : List Char) (a b : Nat) : List Char :=
  (s.drop a).take (b - a)

/-- ASCII decimal digit, the `\d` class / `int()` digit set used here. -/
def isAsciiDigit (c : Char) : Bool := '0' ≤ c && c ≤ '9'

/-- Value of a nonempty ASCII digit run. -/
def digitRunVal (s : List Char) : Nat :=
  s.foldl (fun acc c => acc * 10 + (c.toNat - 48)) 0

/-- Digit-run parse: `some` of the value when `s` is a nonempty run of
ASCII digits, else `none`. -/
def digitsVal (s : List Char) : Option Nat :=
  if s = [] then none
  else if s.all isAsciiDigit then some (digitRunVal s)
  else none

/-- Python `int(s)` on the strings this code can produce: surrounding
whitespace is stripped, then an optional sign followed by one or more
ASCII digits; anything else is a `ValueError`, modelled as `none`. -/
def pyParseInt (s : List Char) : Option Int :=
  let t := pyStrip s
  match t with
  | '-' :: rest => (digitsVal rest).map (fun n => -(n : Int))
  | '+' :: rest => (digitsVal rest).map (fun n => (n : Int))
  | _ => (digitsVal t).map (fun n => (n : Int))

/-- The left-marker computation of `_manual_extract` (local_count.py
lines 62-68): the first `l`, except that when it is immediately followed
by `o` (the word "Local") the search restarts after it. -/
def localMarkerIndex (text : List Char) : Int :=
  let l0 := pyFind text 'l'
  if l0 ≠ -1 ∧ (text.length : Int) > l0 + 1 then
    if text[(l0.toNat + 1)]? = some 'o' then pyFindFrom text 'l' (l0.toNat + 1)
    else l0
  else l0

/-- `LocalCountDetector._manual_extract` (local_count.py lines 55-112). -/
def manualExtract (text : List Char) : Option Int :=
  let localIndex := localMarkerIndex text
  let corpIndex := pyFind text 'C'
  if localIndex = -1 ∨ corpIndex = -1 then none
  else if localIndex > corpIndex then none
  else
    let substring := pySliceFrom text (localIndex.toNat + 1) corpIndex.toNat
    if pyStrip substring = [] then some 0
    else
      let openIdx :=
        if pyFind substring '[' = -1 then pyFind substring '(' else pyFind substring '['
      if openIdx = -1 then none
      else
        let closeIdx :=
          if pyFind substring ']' = -1 then pyFind substring ')' else pyFind substring ']'
        if closeIdx = -1 ∨ closeIdx ≤ openIdx then none
        else pyParseInt (pyStrip (pySliceFrom substring (openIdx.toNat + 1) closeIdx.toNat))

/-- Match a literal character sequence at the head of a text, returning
the remainder on success. -/
def stripLit : List Char → List Char → Option (List Char)
  | [], s => some s
  | _ :: _, [] => none
  | l :: ls, c :: cs => if c = l then stripLit ls cs else none

/-- Matcher for the first pattern `[Ll]ocal\s*[\[\(](\d+)[\]\)]`
(local_count.py line 31) anchored at the head of `s`, returning the
captured number.  `\s*` and `\d+` are maximal-munch here because the
character class following each is disjoint from it, so greedy matching
needs no backtracking. -/
def matchPat1At (s : List Char) : Option Nat :=
  match s with
  | [] => none
  | c :: rest =>
      if c = 'L' ∨ c = 'l' then
        match stripLit ['o', 'c', 'a', 'l'] rest with
        | none => none
        | some r1 =>
            match r1.dropWhile isPyWhitespace with
            | [] => none
            | b :: r3 =>
                if b = '[' ∨ b = '(' then
                  let ds := r3.takeWhile isAsciiDigit
                  if ds = [] then none
                  else
                    match r3.dropWhile isAsciiDigit with
                    | [] => none
                    | cb :: _ =>
                        if cb = ']' ∨ cb = ')' then some (digitRunVal ds) else none
                else none
      else none

/-- Matcher for the second pattern `l\s*[\[\(](\d+)[\]\)]\s*[Cc]`
(local_count.py line 32) anchored at the head of `s`. -/
def matchPat2At (s : List Char) : Option Nat :=
  match s with
  | [] => none
  | c :: rest =>
      if c = 'l' then
        match rest.dropWhile isPyWhitespace with
        | [] => none
        | b :: r3 =>
            if b = '[' ∨ b = '(' then
              let ds := r3.takeWhile isAsciiDigit
              if ds = [] then none
              else
                match r3.dropWhile isAsciiDigit with
                | [] => none
                | cb :: r5 =>
                    if cb = ']' ∨ cb = ')' then
                      match r5.dropWhile isPyWhitespace with
                      | [] => none
                      | cc :: _ =>
                          if cc = 'C' ∨ cc = 'c' then some (digitRunVal ds) else none
                    else none
            else none
      else none

/-- Python `re.search`: try the anchored matcher at every start
position, leftmost first. -/
def reSearch (matchAt : List Char → Option Nat) : List Char → Option Nat
  | [] => matchAt []
  | s@(_ :: rest) =>
      match matchAt s with
      | some n => some n
      | none => reSearch matchAt rest

/-- `LocalCountDetector._extract_value` (local_count.py lines 35-53):
the regex patterns in order (whose captured digit run always converts),
then the manual fallback. -/
def localExtractValue (text : List Char) : Option Int :=
  match reSearch matchPat1At text with
  | some n => some (n : Int)
  | none =>
      match reSearch matchPat2At text with
      | some n => some (n : Int)
      | none => manualExtract text

theorem stripLit_sublist (lit : List Char) :
    ∀ s r : List Char, stripLit lit s = some r → r.Sublist s := by
  induction lit with
  | nil =>
    intro s r h
    simp only [stripLit, Option.some.injEq] at h
    rw [← h]
  | cons l ls ih =>
    intro s r h
    cases s with
    | nil => simp [stripLit] at h
    | cons c cs =>
      simp only [stripLit] at h
      by_cases hc : c = l
      · rw [if_pos hc] at h
        exact (ih cs r h).cons _
      · rw [if_neg hc] at h
        exact absurd h (by simp)

theorem matchPat1At_mem (s : List Char) (n : Nat) (h : matchPat1At s = some n) :
    '[' ∈ s ∨ '(' ∈ s := by
  cases s with
  | nil => simp [matchPat1At] at h
  | cons c rest =>
    simp only [matchPat1At] at h
    by_cases hc : c = 'L' ∨ c = 'l'
    · rw [if_pos hc] at h
      rcases hlit : stripLit ['o', 'c', 'a', 'l'] rest with _ | r1
      · rw [hlit] at h; simp at h
      · rw [hlit] at h
        rcases hdw : r1.dropWhile isPyWhitespace with _ | ⟨b, r3⟩
        · simp [hdw] at h
        · by_cases hb : b = '[' ∨ b = '('
          · have hmem : b ∈ c :: rest := by
              have hm1 : b ∈ r1.dropWhile isPyWhitespace := by
                rw [hdw]; exact List.mem_cons_self _ _
              have hm2 : b ∈ r1 := (List.dropWhile_sublist _).subset hm1
              have hm3 : b ∈ rest := (stripLit_sublist _ _ _ hlit).subset hm2
              exact List.mem_cons_of_mem _ hm3
            rcases hb with rfl | rfl
            · exact Or.inl hmem
            · exact Or.inr hmem
          · simp [hdw, hb] at h
    · rw [if_neg hc] at h; simp at h

theorem matchPat2At_mem (s : List Char) (n : Nat) (h : matchPat2At s = some n) :
    '[' ∈ s ∨ '(' ∈ s := by
  cases s with
  | nil => simp [matchPat2At] at h
  | cons c rest =>
    simp only [matchPat2At] at h
    by_cases hc : c = 'l'
    · rw [if_pos hc] at h
      rcases hdw : rest.dropWhile isPyWhitespace with _ | ⟨b, r3⟩
      · simp [hdw] at h
      · by_cases hb : b = '[' ∨ b = '('
        · have hmem : b ∈ c :: rest := by
            have hm1 : b ∈ rest.dropWhile isPyWhitespace := by
              rw [hdw]; exact List.mem_cons_self _ _
            have hm2 : b ∈ rest := (List.dropWhile_sublist _).subset hm1
            exact List.mem_cons_of_mem _ hm2
          rcases hb with rfl | rfl
          · exact Or.inl hmem
          · exact Or.inr hmem
        · simp [hdw, hb] at h
    · rw [if_neg hc] at h; simp at h

theorem reSearch_none (matchAt : List Char → Option Nat)
    (hma : ∀ s n, matchAt s = some n → '[' ∈ s ∨ '(' ∈ s)
    (text : List Char) (h1 : '[' ∉ text) (h2 : '(' ∉ text) :
    reSearch matchAt text = none := by
  induction text with
  | nil =>
    simp only [reSearch]
    rcases hm : matchAt [] with _ | n
    · rfl
    · rcases hma [] n hm with h | h <;> simp at h
  | cons c rest ih =>
    simp only [reSearch]
    rcases hm : matchAt (c :: rest) with _ | n
    · exact ih (fun hx => h1 (List.mem_cons_of_mem _ hx))
        (fun hx => h2 (List.mem_cons_of_mem _ hx))
    · rcases hma _ n hm with hmem | hmem
      · exact absurd hmem h1
      · exact absurd hmem h2

theorem pyFindAux_eq_neg_one (c : Char) (s : List Char) (h : c ∉ s) :
    ∀ idx, pyFindAux c s idx = -1 := by
  induction s with
  | nil => intro idx; rfl
  | cons x rest ih =>
    intro idx
    have hx : ¬ x = c := fun hxc => h (by rw [hxc]; exact List.mem_cons_self _ _)
    have hr : c ∉ rest := fun hm => h (List.mem_cons_of_mem _ hm)
    simp only [pyFindAux]
    rw [if_neg hx]
    exact ih hr _

theorem pySliceFrom_subset (s : List Char) (a b : Nat) : pySliceFrom s a b ⊆ s :=
  fun _ hx => List.drop_subset _ _ (List.take_subset _ _ hx)

theorem manualExtract_no_bracket (text : List Char)
    (h1 : '[' ∉ text) (h2 : '(' ∉ text) :
    manualExtract text = none ∨ manualExtract text = some 0 := by
  by_cases hm : localMarkerIndex text = -1 ∨ pyFind text 'C' = -1
  · left; simp [manualExtract, hm]
  · by_cases hgt : localMarkerIndex text > pyFind text 'C'
    · left; simp [manualExtract, hm, hgt]
    · by_cases hblank :
        pyStrip (pySliceFrom text ((localMarkerIndex text).toNat + 1)
          (pyFind text 'C').toNat) = []
      · right; simp [manualExtract, hm, hgt, hblank]
      · left
        have hsub1 : '[' ∉ pySliceFrom text ((localMarkerIndex text).toNat + 1)
            (pyFind text 'C').toNat := fun hx => h1 (pySliceFrom_subset _ _ _ hx)
        have hsub2 : '(' ∉ pySliceFrom text ((localMarkerIndex text).toNat + 1)
            (pyFind text 'C').toNat := fun hx => h2 (pySliceFrom_subset _ _ _ hx)
        have ho1 : pyFind (pySliceFrom text ((localMarkerIndex text).toNat + 1)
            (pyFind text 'C').toNat) '[' = -1 := pyFindAux_eq_neg_one _ _ hsub1 0
        have ho2 : pyFind (pySliceFrom text ((localMarkerIndex text).toNat + 1)
            (pyFind text 'C').toNat) '(' = -1 := pyFindAux_eq_neg_one _ _ hsub2 0
        simp [manualExtract, hm, hgt, hblank, ho1, ho2]

/-- C7 counterexample: the text "lC" contains no opening bracket, both
markers are found with only empty text between them, and extraction
returns 0 instead of failing. -/
theorem localExtractValue_blank_markers :
    localExtractValue "lC".toList = some 0 ∧
    '[' ∉ "lC".toList ∧ '(' ∉ "lC".toList := by
  refine ⟨by rfl, by decide, by decide⟩

/-- C7 (amended): "Local [3] Corp [5]" extracts 3; "Local [] Corp [5]"
fails (non-numeric bracket interior); "Local(12)Corp(4)" extracts 12;
and on any text containing no opening bracket, extraction either fails
or returns 0 — the latter exactly in the blank-between-markers case —
rather than always failing. -/
theorem localExtractValue_cases :
    localExtractValue "Local [3] Corp [5]".toList = some 3 ∧
    localExtractValue "Local [] Corp [5]".toList = none ∧
    localExtractValue "Local(12)Corp(4)".toList = some 12 ∧
    (∀ text : List Char, '[' ∉ text → '(' ∉ text →
      localExtractValue text = none ∨ localExtractValue text = some 0) := by
  refine ⟨by rfl, by rfl, by rfl, ?_⟩
  intro text h1 h2
  have hp1 : reSearch matchPat1At text = none :=
    reSearch_none _ matchPat1At_mem text h1 h2
  have hp2 : reSearch matchPat2At text = none :=
    reSearch_none _ matchPat2At_mem text h1 h2
  have hman := manualExtract_no_bracket text h1 h2
  unfold localExtractValue
  rw [hp1, hp2]
  exact hman

/-- Witness for `localExtractValue_cases` on a bracket-free text. -/
theorem localExtractValue_cases_witness :
    localExtractValue "Local 3 Corp".toList = none ∨
    localExtractValue "Local 3 Corp".toList = some 0 :=
  localExtractValue_cases.2.2.2 "Local 3 Corp".toList (by decide) (by decide)

end Screamon
